import Mathlib

/-!
Verification of the LS-8 CPU simulator (src/ls8/cpu.py).

The machine state and every operation are shallowly embedded from the Python
source.  Python numbers are modelled by `PyVal`: a Python int is `.i n` with
`n : ℤ` (Python ints are unbounded), and a Python float — produced only by
the true-division operator in the ALU — is `.f q` with `q : ℚ`, the exact
value idealization of the float (at every input used below the float result
is exactly representable, so the idealization is faithful there).  Python
list indexing (negative-index wrap-around, IndexError outside [-len, len))
is modelled by pyIndex / pySet.  Fallible Python code (exceptions) is
modelled with Except, each error carrying the state at the moment the
exception is raised.
-/

set_option maxRecDepth 8000

namespace LS8

/-- A Python number: an (unbounded) int, or a float idealized as an exact
rational. -/
inductive PyVal : Type
  | i (n : ℤ)
  | f (q : ℚ)
deriving DecidableEq

/-- The numeric value of a Python number. -/
def PyVal.toQ : PyVal → ℚ
  | .i n => (n : ℚ)
  | .f q => q

/-- Python `==` on numbers: numeric equality (ints and floats compare by
value). -/
def PyVal.eqb (a b : PyVal) : Bool := a.toQ == b.toQ

/-- Python `+` on numbers: int + int is an int, anything involving a float
is a float. -/
def PyVal.add : PyVal → PyVal → PyVal
  | .i a, .i b => .i (a + b)
  | a, b => .f (a.toQ + b.toQ)

/-- Python `-` on numbers. -/
def PyVal.sub : PyVal → PyVal → PyVal
  | .i a, .i b => .i (a - b)
  | a, b => .f (a.toQ - b.toQ)

/-- Python `*` on numbers. -/
def PyVal.mul : PyVal → PyVal → PyVal
  | .i a, .i b => .i (a * b)
  | a, b => .f (a.toQ * b.toQ)

/-- Python `/` on numbers: true division, always a float (the caller checks
for a zero divisor first, mirroring ZeroDivisionError). -/
def PyVal.div (a b : PyVal) : PyVal := .f (a.toQ / b.toQ)

/-- A Python number is usable as a list index / shift operand only if it is
an int; floats raise TypeError. -/
def toI : PyVal → Option ℤ
  | .i n => some n
  | .f _ => none

/-- Python list subscript read: `l[i]`.  Non-negative indices are looked up
directly (IndexError, i.e. none, at or beyond the length); indices in
[-len, 0) wrap around Python-style; anything below -len is an IndexError. -/
def pyIndex {α : Type} (l : List α) (i : ℤ) : Option α :=
  if 0 ≤ i then l[i.toNat]?
  else if -(l.length : ℤ) ≤ i then l[(i + l.length).toNat]?
  else none

/-- Python list subscript write: `l[i] = v`, same index discipline as
pyIndex. -/
def pySet {α : Type} (l : List α) (i : ℤ) (v : α) : Option (List α) :=
  if 0 ≤ i then
    if i < (l.length : ℤ) then some (l.set i.toNat v) else none
  else if -(l.length : ℤ) ≤ i then some (l.set (i + l.length).toNat v)
  else none

/-- Python `n >> k` on ints: arithmetic shift = floor division by 2^k. -/
def pyShr (n : ℤ) (k : ℕ) : ℤ := Int.fdiv n (2 ^ k)

/-- Python `a | b` on ints (used only on small non-negative flag masks). -/
def pyOr (a b : ℤ) : ℤ := Int.lor a b

/-- The value the CMP branch of `alu` leaves in the `fl` attribute: the
source resets fl to 0 and then runs three `if` blocks or-ing in bits 1, 2
and 4, but all three conditions are written as the same equality test
`self.reg[reg_a] == self.reg[reg_b]` (cpu.py lines 105, 110, 115). -/
def cmpFlags (a b : PyVal) : ℤ :=
  let f₁ := if a.eqb b then pyOr 0 1 else 0
  let f₂ := if a.eqb b then pyOr f₁ 2 else f₁
  if a.eqb b then pyOr f₂ 4 else f₂

/-- Python exceptions that the source can raise (plus SystemExit, which
`handle_HLT` and the end of `run` use for clean termination). -/
inductive PyErr : Type
  /-- AttributeError: attribute lookup failure (undefined method). -/
  | attributeError
  /-- IndexError: list index out of range.  The Python message carries no
  address. -/
  | indexError
  /-- TypeError: e.g. a float used as a list index or shift operand. -/
  | typeError
  /-- KeyError: dict lookup failure in the branchtable; the Python message
  shows the key (the fetched opcode byte) and nothing else. -/
  | keyError (k : ℤ)
  /-- ZeroDivisionError from `/=` with zero divisor. -/
  | zeroDivisionError
  /-- The explicit Exception raised for an unsupported ALU operation. -/
  | exceptionUnsupported
  /-- SystemExit from sys.exit(): clean termination. -/
  | systemExit
deriving DecidableEq

/-- The data a fatal error's diagnostic message contains.  A KeyError prints
the offending key (the opcode byte); the other exceptions used by the source
print no address/PC data at all. -/
def errReport : PyErr → List PyVal
  | .keyError k => [.i k]
  | _ => []

/-- The handler methods that the class actually defines.  `handle_CMP` is
commented out in the source (cpu.py lines 196-197), so there is no
corresponding method. -/
inductive Method : Type
  | hHLT | hLDI | hPRN | hPOP | hPUSH | hCALL | hRET | hJEQ | hJMP | hJNE
deriving DecidableEq

/-- The attribute names looked up on `self` while `__init__` populates the
branchtable (source lines 48-62, in source order). -/
inductive HandlerName : Type
  | nHLT | nLDI | nPRN | nPUSH | nPOP | nCALL | nRET | nCMP | nJMP | nJEQ | nJNE
deriving DecidableEq

/-- Attribute lookup `self.handle_XXX` on the class: every name resolves to
the method of the same name, except `handle_CMP`, which is not defined
(commented out in the source), so the lookup fails. -/
def getMethodAttr : HandlerName → Option Method
  | .nHLT => some .hHLT
  | .nLDI => some .hLDI
  | .nPRN => some .hPRN
  | .nPUSH => some .hPUSH
  | .nPOP => some .hPOP
  | .nCALL => some .hCALL
  | .nRET => some .hRET
  | .nCMP => none
  | .nJMP => some .hJMP
  | .nJEQ => some .hJEQ
  | .nJNE => some .hJNE

/-- The CPU state: the instance attributes assigned in `__init__`, plus the
`fl` attribute that `alu`'s CMP branch creates dynamically (the source
writes lowercase `self.fl`, a different attribute from the `self.FL` flags
register initialised in `__init__`; `none` = attribute not yet created),
plus the accumulated PRN output. -/
structure CPU : Type where
  ram : List PyVal
  reg : List PyVal
  PC : PyVal
  IR : Option PyVal
  MAR : PyVal
  MDR : Option PyVal
  FL : ℤ
  fl : Option ℤ
  running : Bool
  output : List PyVal
deriving DecidableEq

/-! Opcode constants, from the top of cpu.py. -/

def HLT : ℤ := 0b00000001
def LDI : ℤ := 0b10000010
def PRN : ℤ := 0b01000111
def ADD : ℤ := 0b10100000
def SUB : ℤ := 0b10100001
def MUL : ℤ := 0b10100010
def DIV : ℤ := 0b10100011
def PUSH : ℤ := 0b01000101
def POP : ℤ := 0b01000110
def CALL : ℤ := 0b01010000
def RET : ℤ := 0b00010001
def CMP : ℤ := 0b10100111
def JEQ : ℤ := 0b01010101
def JMP : ℤ := 0b01010100
def JNE : ℤ := 0b01010110

/-- `ram_read` (cpu.py lines 121-125): sets MAR, indexes the ram list (MAR
is set even if the indexing then raises), sets MDR and returns the value. -/
def ram_read (s : CPU) (address : PyVal) : Except (PyErr × CPU) (CPU × PyVal) :=
  match toI address with
  | none => .error (.typeError, { s with MAR := address })
  | some i =>
    match pyIndex s.ram i with
    | none => .error (.indexError, { s with MAR := address })
    | some v => .ok ({ s with MAR := address, MDR := some v }, v)

/-- `ram_write` (cpu.py lines 127-131): sets MAR and MDR, then stores. -/
def ram_write (s : CPU) (address value : PyVal) : Except (PyErr × CPU) CPU :=
  match toI address with
  | none => .error (.typeError, { s with MAR := address, MDR := some value })
  | some i =>
    match pySet s.ram i value with
    | none => .error (.indexError, { s with MAR := address, MDR := some value })
    | some r => .ok { s with MAR := address, MDR := some value, ram := r }

/-- Register file read `self.reg[idx]` (direct Python list subscript). -/
def getRegE (s : CPU) (idx : PyVal) : Except (PyErr × CPU) PyVal :=
  match toI idx with
  | none => .error (.typeError, s)
  | some i =>
    match pyIndex s.reg i with
    | none => .error (.indexError, s)
    | some v => .ok v

/-- Register file write `self.reg[idx] = v`. -/
def setRegE (s : CPU) (idx v : PyVal) : Except (PyErr × CPU) CPU :=
  match toI idx with
  | none => .error (.typeError, s)
  | some i =>
    match pySet s.reg i v with
    | none => .error (.indexError, s)
    | some r => .ok { s with reg := r }

/-- `CPU.alu` (cpu.py lines 91-119).  The op selector is compared against
the opcode constants; ADD/SUB/MUL read both registers and write the
unmasked Python result back (no modulo-256 reduction appears in the
source); DIV is Python true division `/=` (ZeroDivisionError on a zero
divisor, otherwise a float); CMP first creates/resets the lowercase `fl`
attribute to 0 and then runs three `if` blocks whose conditions are all
written as equality tests in the source (lines 105, 110, 115), or-ing in
bits 1, 2 and 4. -/
def alu (s : CPU) (op rA rB : PyVal) : Except (PyErr × CPU) CPU :=
  if op.eqb (.i ADD) then
    match getRegE s rA with
    | .error e => .error e
    | .ok a =>
      match getRegE s rB with
      | .error e => .error e
      | .ok b => setRegE s rA (a.add b)
  else if op.eqb (.i SUB) then
    match getRegE s rA with
    | .error e => .error e
    | .ok a =>
      match getRegE s rB with
      | .error e => .error e
      | .ok b => setRegE s rA (a.sub b)
  else if op.eqb (.i MUL) then
    match getRegE s rA with
    | .error e => .error e
    | .ok a =>
      match getRegE s rB with
      | .error e => .error e
      | .ok b => setRegE s rA (a.mul b)
  else if op.eqb (.i DIV) then
    match getRegE s rA with
    | .error e => .error e
    | .ok a =>
      match getRegE s rB with
      | .error e => .error e
      | .ok b =>
        if b.eqb (.i 0) then .error (.zeroDivisionError, s)
        else setRegE s rA (a.div b)
  else if op.eqb (.i CMP) then
    match getRegE { s with fl := some 0 } rA with
    | .error e => .error e
    | .ok a =>
      match getRegE { s with fl := some 0 } rB with
      | .error e => .error e
      | .ok b => .ok { s with fl := some (cmpFlags a b) }
  else .error (.exceptionUnsupported, s)

/-- The opcode handlers (cpu.py lines 153-206), one arm per method.
`handle_JEQ`, `handle_JMP` and `handle_JNE` are bare `pass` statements in
the source and so leave the state unchanged. -/
def execMethod : Method → CPU → Except (PyErr × CPU) CPU
  | .hHLT, s => .error (.systemExit, { s with running := false })
  | .hLDI, s =>
    match ram_read s (s.PC.add (.i 1)) with
    | .error e => .error e
    | .ok (s₁, register) =>
      match ram_read s₁ (s₁.PC.add (.i 2)) with
      | .error e => .error e
      | .ok (s₂, value) => setRegE s₂ register value
  | .hPRN, s =>
    match ram_read s (s.PC.add (.i 1)) with
    | .error e => .error e
    | .ok (s₁, register) =>
      match getRegE s₁ register with
      | .error e => .error e
      | .ok v => .ok { s₁ with output := s₁.output ++ [v] }
  | .hPOP, s =>
    match getRegE s (.i 7) with
    | .error e => .error e
    | .ok sp =>
      match ram_read s sp with
      | .error e => .error e
      | .ok (s₁, value) =>
        match ram_read s₁ (s₁.PC.add (.i 1)) with
        | .error e => .error e
        | .ok (s₂, register) =>
          match setRegE s₂ register value with
          | .error e => .error e
          | .ok s₃ =>
            match getRegE s₃ (.i 7) with
            | .error e => .error e
            | .ok sp₂ => setRegE s₃ (.i 7) (sp₂.add (.i 1))
  | .hPUSH, s =>
    match getRegE s (.i 7) with
    | .error e => .error e
    | .ok sp =>
      match setRegE s (.i 7) (sp.sub (.i 1)) with
      | .error e => .error e
      | .ok s₁ =>
        match ram_read s₁ (s₁.PC.add (.i 1)) with
        | .error e => .error e
        | .ok (s₂, register) =>
          match getRegE s₂ register with
          | .error e => .error e
          | .ok value =>
            match getRegE s₂ (.i 7) with
            | .error e => .error e
            | .ok sp₂ => ram_write s₂ sp₂ value
  | .hCALL, s =>
    match getRegE s (.i 7) with
    | .error e => .error e
    | .ok sp =>
      match setRegE s (.i 7) (sp.sub (.i 1)) with
      | .error e => .error e
      | .ok s₁ =>
        match getRegE s₁ (.i 7) with
        | .error e => .error e
        | .ok sp₂ =>
          match ram_write s₁ sp₂ (s.PC.add (.i 2)) with
          | .error e => .error e
          | .ok s₂ =>
            match ram_read s₂ (s₂.PC.add (.i 1)) with
            | .error e => .error e
            | .ok (s₃, reg_value) =>
              match getRegE s₃ reg_value with
              | .error e => .error e
              | .ok address => .ok { s₃ with PC := address }
  | .hRET, s =>
    match getRegE s (.i 7) with
    | .error e => .error e
    | .ok sp =>
      match ram_read s sp with
      | .error e => .error e
      | .ok (s₁, address) =>
        match getRegE s₁ (.i 7) with
        | .error e => .error e
        | .ok sp₂ =>
          match setRegE s₁ (.i 7) (sp₂.add (.i 1)) with
          | .error e => .error e
          | .ok s₂ => .ok { s₂ with PC := address }
  | .hJEQ, s => .ok s
  | .hJMP, s => .ok s
  | .hJNE, s => .ok s

/-- The dispatch table contents as written in `__init__` (cpu.py lines
48-62).  The source also assigns an entry for CMP from `self.handle_CMP`,
but that method does not exist (see initCPU below / claim C1); since CMP
has the ALU bit set, `run` never consults the table for it, so no entry is
modelled. -/
def branchtable0 (i : ℤ) : Option Method :=
  if i = HLT then some .hHLT
  else if i = LDI then some .hLDI
  else if i = PRN then some .hPRN
  else if i = PUSH then some .hPUSH
  else if i = POP then some .hPOP
  else if i = CALL then some .hCALL
  else if i = RET then some .hRET
  else if i = JMP then some .hJMP
  else if i = JEQ then some .hJEQ
  else if i = JNE then some .hJNE
  else none

/-- The part of the fetch phase after the instruction byte has been read
into IR: compute `operands = instruction >> 6` (a TypeError here if the
fetched value is not an int, before anything else), then unconditionally
fetch the two operand bytes. -/
def fetchRest (s : CPU) (instr : PyVal) :
    Except (PyErr × CPU) (CPU × ℤ × PyVal × PyVal) :=
  match toI instr with
  | none => .error (.typeError, s)
  | some i =>
    match ram_read s (s.PC.add (.i 1)) with
    | .error e => .error e
    | .ok (s₁, a) =>
      match ram_read s₁ (s₁.PC.add (.i 2)) with
      | .error e => .error e
      | .ok (s₂, b) => .ok (s₂, i, a, b)

/-- The fetch part of one `run` cycle (cpu.py lines 211-217): read the
instruction at PC, store it into IR, then decode/fetch the rest. -/
def fetchPhase (s : CPU) : Except (PyErr × CPU) (CPU × ℤ × PyVal × PyVal) :=
  match ram_read s s.PC with
  | .error e => .error e
  | .ok (s₀, instr) => fetchRest { s₀ with IR := some instr } instr

/-- The dispatch part of one `run` cycle (cpu.py lines 219-224): if bit 5
of the instruction is set, call the ALU with the instruction as the op
selector (the source passes `self.IR`, which holds the fetched value);
otherwise look the opcode up in the branchtable, a KeyError if absent. -/
def dispatch (i : ℤ) (a b : PyVal) (s : CPU) : Except (PyErr × CPU) CPU :=
  if pyShr i 5 % 2 = 1 then alu s (.i i) a b
  else
    match branchtable0 i with
    | some m => execMethod m s
    | none => .error (.keyError i, s)

/-- One full iteration of the `while self.running` loop (cpu.py lines
210-229): fetch, dispatch, then the automatic PC advance by
`operands + 1` unless bit 4 of the instruction is set. -/
def runCycle (s : CPU) : Except (PyErr × CPU) CPU :=
  match fetchPhase s with
  | .error e => .error e
  | .ok (s₁, i, a, b) =>
    match dispatch i a b s₁ with
    | .error e => .error e
    | .ok s₂ =>
      .ok (if pyShr i 4 % 2 = 0
           then { s₂ with PC := s₂.PC.add (.i (pyShr i 6 + 1)) }
           else s₂)

/-- Result of running the machine: clean SystemExit (HLT, or loop exit), a
fatal uncaught exception, or fuel exhaustion (the program is still
spinning). -/
inductive Outcome : Type
  | halted (s : CPU)
  | fatal (e : PyErr) (s : CPU)
  | spin (s : CPU)
deriving DecidableEq

/-- `CPU.run` (cpu.py lines 208-231) with explicit fuel: iterate the cycle
while `running`; SystemExit (from HLT, or from the `sys.exit()` after the
loop) is clean termination, any other exception is fatal. -/
def run : ℕ → CPU → Outcome
  | 0, s => .spin s
  | n + 1, s =>
    if s.running then
      match runCycle s with
      | .ok s₁ => run n s₁
      | .error (.systemExit, s₁) => .halted s₁
      | .error (e, s₁) => .fatal e s₁
    else .halted s

/-- The instance attributes as assigned at the top of `__init__` (cpu.py
lines 34-45): zeroed ram and registers, stack pointer (reg[7]) = 0xF4,
PC = 0, FL = 0, running; the lowercase `fl` attribute does not exist yet. -/
def initialState : CPU :=
  { ram := List.replicate 256 (.i 0)
    reg := (List.replicate 8 (.i 0)).set 7 (.i 0xF4)
    PC := .i 0
    IR := none
    MAR := .i 0
    MDR := none
    FL := 0
    fl := none
    running := true
    output := [] }

/-- `__init__`'s branchtable population (cpu.py lines 47-62), in source
order: each line looks up a handler attribute on self and stores it; the
lookup of `handle_CMP` (line 58) raises AttributeError. -/
def initTableEntries : List (ℤ × HandlerName) :=
  [(HLT, .nHLT), (LDI, .nLDI), (PRN, .nPRN), (PUSH, .nPUSH), (POP, .nPOP),
   (CALL, .nCALL), (RET, .nRET), (CMP, .nCMP), (JMP, .nJMP), (JEQ, .nJEQ),
   (JNE, .nJNE)]

/-- Build the branchtable entry by entry, failing with AttributeError at
the first handler attribute that does not exist. -/
def buildBranchtable : List (ℤ × HandlerName) → Except PyErr (List (ℤ × Method))
  | [] => .ok []
  | (k, nm) :: rest =>
    match getMethodAttr nm with
    | none => .error .attributeError
    | some m =>
      match buildBranchtable rest with
      | .error e => .error e
      | .ok t => .ok ((k, m) :: t)

/-- `CPU.__init__` (cpu.py lines 32-62): assign the state fields, then
populate the branchtable; an AttributeError while doing so aborts
construction, so no instance is produced. -/
def initCPU : Except PyErr CPU :=
  match buildBranchtable initTableEntries with
  | .error e => .error e
  | .ok _ => .ok initialState

/-- A state as produced by `__init__` followed by `load` of a program
image: the program bytes occupy ram starting at address 0, the rest stays
zero. -/
def loadState (prog : List PyVal) : CPU :=
  { initialState with ram := prog ++ List.replicate (256 - prog.length) (.i 0) }

/-- Observation of a finished (out-of-fuel) run: the PRN output so far and
the value of register 0. -/
def afterSteps (n : ℕ) (s : CPU) : Option (List PyVal × Option PyVal) :=
  match run n s with
  | .spin s₁ => some (s₁.output, pyIndex s₁.reg 0)
  | _ => none

/-- Observation of a fatally-errored run: the exception and the PRN output
already emitted when it was raised. -/
def fatalView (n : ℕ) (s : CPU) : Option (PyErr × List PyVal) :=
  match run n s with
  | .fatal e s₁ => some (e, s₁.output)
  | _ => none

instance {ε α : Type} [DecidableEq ε] [DecidableEq α] : DecidableEq (Except ε α) :=
  fun x y =>
    match x, y with
    | .error a, .error b =>
      if h : a = b then isTrue (by rw [h]) else isFalse (by simp [h])
    | .ok a, .ok b =>
      if h : a = b then isTrue (by rw [h]) else isFalse (by simp [h])
    | .error _, .ok _ => isFalse (by simp)
    | .ok _, .error _ => isFalse (by simp)

/-- A loaded state with registers a = x and b = y, used to probe the ALU's
compare operation. -/
def cmpProbe (x y : PyVal) : CPU :=
  { initialState with reg := (initialState.reg.set 0 x).set 1 y }

/-- A state about to execute JEQ r0 with reg[0] = 10 and the E bit set in
the fl attribute (as a CMP on equal values would have left it). -/
def jeqProbe : CPU :=
  { loadState [.i JEQ, .i 0] with
    reg := initialState.reg.set 0 (.i 10)
    fl := some 1 }

/-- A state about to execute JNE r0 with reg[0] = 10 and the E bit clear. -/
def jneProbe : CPU :=
  { loadState [.i JNE, .i 0] with
    reg := initialState.reg.set 0 (.i 10)
    fl := some 0 }

/-- The probe program LDI r0,x; LDI r1,y; op r0,r1; PRN r0. -/
def binProg (op x y : PyVal) : CPU :=
  loadState [.i LDI, .i 0, x, .i LDI, .i 1, y, op, .i 0, .i 1, .i PRN, .i 0]

/-- Witness state for push/pop: PUSH r2; POP r2 with reg[2] = 42. -/
def c6w : CPU :=
  { loadState [.i PUSH, .i 2, .i POP, .i 2] with
    reg := initialState.reg.set 2 (.i 42) }

/-- Witness state for call/ret: CALL r1 (reg[1] = 4); address 4 holds RET. -/
def c7s : CPU :=
  { loadState [.i CALL, .i 1, .i 0, .i 0, .i RET] with
    reg := initialState.reg.set 1 (.i 4) }

/-- The state right after the CALL cycle of c7s (the subroutine entry). -/
def c7t : CPU := ((runCycle c7s).toOption).getD c7s

/-- Witness state for the decode/advance claim: a single LDI r0,5. -/
def c8s : CPU := loadState [.i LDI, .i 0, .i 5]

/-- c8s after the fetch phase. -/
def c8s1 : CPU := { c8s with MAR := .i 2, MDR := some (.i 5), IR := some (.i LDI) }

/-- c8s1 after the LDI handler ran. -/
def c8t : CPU := { c8s1 with reg := c8s1.reg.set 0 (.i 5) }

/-- A program whose first byte (2) has a clear ALU bit and no branchtable
entry. -/
def c10s : CPU := loadState [.i 2]

/-- c10s after the fetch phase of its first (and only) cycle. -/
def c10s1 : CPU := { c10s with MAR := .i 2, MDR := some (.i 0), IR := some (.i 2) }

/-! ## Helper lemmas -/

theorem pyIndex_oob {α : Type} (l : List α) (i : ℤ) (hl : l.length = 256)
    (h : 256 ≤ i ∨ i < -256) : pyIndex l i = none := by
  rcases h with h | h
  · have h0 : 0 ≤ i := by omega
    simp only [pyIndex, if_pos h0]
    apply List.getElem?_eq_none
    omega
  · have h0 : ¬ 0 ≤ i := by omega
    have h1 : ¬ -(l.length : ℤ) ≤ i := by rw [hl]; push_cast; omega
    simp [pyIndex, h0, h1]

theorem pySet_oob {α : Type} (l : List α) (i : ℤ) (v : α) (hl : l.length = 256)
    (h : 256 ≤ i ∨ i < -256) : pySet l i v = none := by
  rcases h with h | h
  · have h0 : 0 ≤ i := by omega
    have h1 : ¬ i < (l.length : ℤ) := by rw [hl]; push_cast; omega
    simp [pySet, h0, h1]
  · have h0 : ¬ 0 ≤ i := by omega
    have h1 : ¬ -(l.length : ℤ) ≤ i := by rw [hl]; push_cast; omega
    simp [pySet, h0, h1]

theorem pyIndex_neg {α : Type} (l : List α) (i : ℤ) (hl : l.length = 256)
    (h0 : -256 ≤ i) (h1 : i < 0) : pyIndex l i = l[(i + 256).toNat]? := by
  have hn : ¬ 0 ≤ i := by omega
  have h2 : -(l.length : ℤ) ≤ i := by rw [hl]; push_cast; omega
  unfold pyIndex
  rw [if_neg hn, if_pos h2, hl]
  norm_num

theorem pySet_neg {α : Type} (l : List α) (i : ℤ) (v : α) (hl : l.length = 256)
    (h0 : -256 ≤ i) (h1 : i < 0) : pySet l i v = some (l.set (i + 256).toNat v) := by
  have hn : ¬ 0 ≤ i := by omega
  have h2 : -(l.length : ℤ) ≤ i := by rw [hl]; push_cast; omega
  unfold pySet
  rw [if_neg hn, if_pos h2, hl]
  norm_num

theorem pyIndex_nonneg {α : Type} (l : List α) (i : ℤ) (h : 0 ≤ i) :
    pyIndex l i = l[i.toNat]? := by
  simp [pyIndex, h]

theorem pySet_inbounds {α : Type} (l : List α) (i : ℤ) (v : α) (h0 : 0 ≤ i)
    (h1 : i < (l.length : ℤ)) : pySet l i v = some (l.set i.toNat v) := by
  simp [pySet, h0, h1]

theorem ram_read_frame {s : CPU} {ad : PyVal} {p : CPU × PyVal}
    (h : ram_read s ad = .ok p) :
    p.1.output = s.output ∧ p.1.ram = s.ram ∧ p.1.reg = s.reg ∧
      p.1.PC = s.PC ∧ p.1.running = s.running := by
  unfold ram_read at h
  split at h
  · exact absurd h (by simp)
  · split at h
    · exact absurd h (by simp)
    · simp only [Except.ok.injEq] at h
      subst h
      exact ⟨rfl, rfl, rfl, rfl, rfl⟩

theorem fetchRest_frame {s : CPU} {instr : PyVal} {r : CPU × ℤ × PyVal × PyVal}
    (h : fetchRest s instr = .ok r) :
    r.1.output = s.output ∧ r.1.ram = s.ram ∧ r.1.reg = s.reg ∧
      r.1.PC = s.PC ∧ r.1.running = s.running := by
  unfold fetchRest at h
  split at h
  · exact absurd h (by simp)
  · split at h
    · exact absurd h (by simp)
    · rename_i heq2
      split at h
      · exact absurd h (by simp)
      · rename_i heq3
        simp only [Except.ok.injEq] at h
        subst h
        obtain ⟨o2, m2, g2, p2, u2⟩ := ram_read_frame heq2
        obtain ⟨o3, m3, g3, p3, u3⟩ := ram_read_frame heq3
        simp_all

theorem fetchPhase_frame {s : CPU} {r : CPU × ℤ × PyVal × PyVal}
    (h : fetchPhase s = .ok r) :
    r.1.output = s.output ∧ r.1.ram = s.ram ∧ r.1.reg = s.reg ∧
      r.1.PC = s.PC ∧ r.1.running = s.running := by
  unfold fetchPhase at h
  split at h
  · exact absurd h (by simp)
  · rename_i heq1
    obtain ⟨o1, m1, g1, p1, u1⟩ := ram_read_frame heq1
    obtain ⟨o2, m2, g2, p2, u2⟩ := fetchRest_frame h
    simp_all

theorem fetchPhase_spec (s : CPU) (p iv : ℤ) (av bv : PyVal)
    (hPC : s.PC = .i p)
    (h0 : pyIndex s.ram p = some (.i iv))
    (h1 : pyIndex s.ram (p + 1) = some av)
    (h2 : pyIndex s.ram (p + 2) = some bv) :
    fetchPhase s =
      .ok ({ s with MAR := .i (p + 2), MDR := some bv, IR := some (.i iv) },
        iv, av, bv) := by
  unfold fetchPhase fetchRest ram_read
  simp only [hPC, PyVal.add, toI, h0, h1, h2]

theorem runCycle_of_parts (s s₁ t : CPU) (i : ℤ) (a b : PyVal)
    (hf : fetchPhase s = .ok (s₁, i, a, b)) (hd : dispatch i a b s₁ = .ok t) :
    runCycle s = .ok (if pyShr i 4 % 2 = 0
        then { t with PC := t.PC.add (.i (pyShr i 6 + 1)) } else t) := by
  simp only [runCycle, hf, hd]

theorem run_keyError (n : ℕ) (s s₁ : CPU) (i : ℤ)
    (hr : s.running = true) (hc : runCycle s = .error (.keyError i, s₁)) :
    run (n + 1) s = .fatal (.keyError i) s₁ := by
  simp [run, hr, hc]

theorem alu_DIV_eq (s : CPU) (rA rB : PyVal) :
    alu s (.i DIV) rA rB =
      match getRegE s rA with
      | .error e => .error e
      | .ok a =>
        match getRegE s rB with
        | .error e => .error e
        | .ok b =>
          if b.eqb (.i 0) then .error (.zeroDivisionError, s)
          else setRegE s rA (a.div b) := rfl

theorem pyIndex_exists {α : Type} (l : List α) (i : ℤ) (h0 : 0 ≤ i)
    (h : i < (l.length : ℤ)) : ∃ v, pyIndex l i = some v := by
  rw [pyIndex_nonneg l i h0]
  have hlt : i.toNat < l.length := by omega
  exact ⟨l[i.toNat], List.getElem?_eq_getElem hlt⟩

theorem pyIndex_set_self {α : Type} (l : List α) (i : ℤ) (v : α) (h0 : 0 ≤ i)
    (h : i < (l.length : ℤ)) : pyIndex (l.set i.toNat v) i = some v := by
  rw [pyIndex_nonneg _ _ h0]
  exact List.getElem?_set_self (by omega)

theorem pyIndex_set_ne {α : Type} (l : List α) (i j : ℤ) (v : α) (h0 : 0 ≤ i)
    (h1 : 0 ≤ j) (hne : i ≠ j) :
    pyIndex (l.set i.toNat v) j = pyIndex l j := by
  rw [pyIndex_nonneg _ _ h1, pyIndex_nonneg _ _ h1]
  exact List.getElem?_set_ne (by omega)

theorem dispatch_PUSH (a b : PyVal) (s : CPU) :
    dispatch PUSH a b s = execMethod .hPUSH s := rfl

theorem dispatch_POP (a b : PyVal) (s : CPU) :
    dispatch POP a b s = execMethod .hPOP s := rfl

theorem dispatch_CALL (a b : PyVal) (s : CPU) :
    dispatch CALL a b s = execMethod .hCALL s := rfl

theorem dispatch_RET (a b : PyVal) (s : CPU) :
    dispatch RET a b s = execMethod .hRET s := rfl

theorem execPUSH_spec (s : CPU) (p S r : ℤ) (v : PyVal)
    (hreg : s.reg.length = 8) (hram : s.ram.length = 256)
    (hPC : s.PC = .i p)
    (hS7 : pyIndex s.reg 7 = some (.i S))
    (hS1 : 1 ≤ S) (hS2 : S ≤ 256)
    (h1 : pyIndex s.ram (p + 1) = some (.i r))
    (hv : pyIndex (s.reg.set (7:ℤ).toNat (.i (S - 1))) r = some v) :
    execMethod .hPUSH s = .ok { s with
        reg := s.reg.set (7:ℤ).toNat (.i (S - 1)),
        MAR := .i (S - 1), MDR := some v,
        ram := s.ram.set (S - 1).toNat v } := by
  have hset7 : pySet s.reg 7 (.i (S - 1)) = some (s.reg.set (7:ℤ).toNat (.i (S - 1))) :=
    pySet_inbounds s.reg 7 (.i (S - 1)) (by omega) (by omega)
  have hreg7b : pyIndex (s.reg.set (7:ℤ).toNat (.i (S - 1))) 7 = some (.i (S - 1)) :=
    pyIndex_set_self s.reg 7 (.i (S - 1)) (by omega) (by omega)
  have hsetram : pySet s.ram (S - 1) v = some (s.ram.set (S - 1).toNat v) :=
    pySet_inbounds s.ram (S - 1) v (by omega) (by omega)
  unfold execMethod getRegE setRegE ram_read ram_write
  simp only [toI, PyVal.sub, PyVal.add, hPC, hS7, hset7, h1, hv, hreg7b, hsetram]

theorem execPOP_spec (s : CPU) (p2 T r w7 : ℤ) (v : PyVal)
    (hreg : s.reg.length = 8)
    (hPC : s.PC = .i p2)
    (h7 : pyIndex s.reg 7 = some (.i T))
    (hMem : pyIndex s.ram T = some v)
    (h1 : pyIndex s.ram (p2 + 1) = some (.i r))
    (hr0 : 0 ≤ r) (hr8 : r < 8)
    (h7b : pyIndex (s.reg.set r.toNat v) 7 = some (.i w7)) :
    execMethod .hPOP s = .ok { s with
        reg := (s.reg.set r.toNat v).set (7:ℤ).toNat (.i (w7 + 1)),
        MAR := .i (p2 + 1), MDR := some (.i r) } := by
  have hsetr : pySet s.reg r v = some (s.reg.set r.toNat v) :=
    pySet_inbounds _ _ _ hr0 (by omega)
  have hset7 : pySet (s.reg.set r.toNat v) 7 (.i (w7 + 1))
      = some ((s.reg.set r.toNat v).set (7:ℤ).toNat (.i (w7 + 1))) :=
    pySet_inbounds _ _ _ (by omega) (by simp [List.length_set]; omega)
  unfold execMethod getRegE setRegE ram_read
  simp only [toI, PyVal.add, hPC, h7, hMem, h1, hsetr, h7b, hset7]

theorem execCALL_spec (s : CPU) (p S r : ℤ) (tgt : PyVal)
    (hreg : s.reg.length = 8) (hram : s.ram.length = 256)
    (hPC : s.PC = .i p)
    (hS7 : pyIndex s.reg 7 = some (.i S))
    (hS1 : 1 ≤ S) (hS2 : S ≤ 256)
    (h1 : pyIndex s.ram (p + 1) = some (.i r))
    (hc1 : S - 1 ≠ p + 1) (hp1 : 0 ≤ p + 1)
    (htgt : pyIndex (s.reg.set (7:ℤ).toNat (.i (S - 1))) r = some tgt) :
    execMethod .hCALL s = .ok { s with
        reg := s.reg.set (7:ℤ).toNat (.i (S - 1)),
        ram := s.ram.set (S - 1).toNat (.i (p + 2)),
        MAR := .i (p + 1), MDR := some (.i r),
        PC := tgt } := by
  have hset7 : pySet s.reg 7 (.i (S - 1)) = some (s.reg.set (7:ℤ).toNat (.i (S - 1))) :=
    pySet_inbounds _ _ _ (by omega) (by omega)
  have hregA7 : pyIndex (s.reg.set (7:ℤ).toNat (.i (S - 1))) 7 = some (.i (S - 1)) :=
    pyIndex_set_self s.reg 7 (.i (S - 1)) (by omega) (by omega)
  have hsetram : pySet s.ram (S - 1) (.i (p + 2))
      = some (s.ram.set (S - 1).toNat (.i (p + 2))) :=
    pySet_inbounds _ _ _ (by omega) (by omega)
  have hJ : pyIndex (s.ram.set (S - 1).toNat (.i (p + 2))) (p + 1) = some (.i r) := by
    rw [pyIndex_set_ne s.ram (S - 1) (p + 1) _ (by omega) hp1 hc1]
    exact h1
  unfold execMethod getRegE setRegE ram_read ram_write
  simp only [toI, PyVal.sub, PyVal.add, hPC, hS7, hset7, hregA7, hsetram, hJ, htgt]

theorem execRET_spec (s : CPU) (T : ℤ) (ra : PyVal)
    (hreg : s.reg.length = 8)
    (h7 : pyIndex s.reg 7 = some (.i T))
    (hMem : pyIndex s.ram T = some ra) :
    execMethod .hRET s = .ok { s with
        reg := s.reg.set (7:ℤ).toNat (.i (T + 1)),
        MAR := .i T, MDR := some ra, PC := ra } := by
  have hset7 : pySet s.reg 7 (.i (T + 1)) = some (s.reg.set (7:ℤ).toNat (.i (T + 1))) :=
    pySet_inbounds _ _ _ (by omega) (by omega)
  unfold execMethod getRegE setRegE ram_read
  simp only [toI, PyVal.add, h7, hMem, hset7]

/-! ## Claims -/

/-- Claim C1 (confirmed): constructing the CPU always fails, because
`__init__` populates the dispatch table from `self.handle_CMP`, a method
that is not defined anywhere in the class (it is commented out), so the
attribute lookup raises AttributeError and no instance on which `load` or
`run` could execute is ever produced. -/
theorem C1_init_attribute_error : initCPU = .error .attributeError := by decide

/-- Claim C2 (code bug): the compare operation does not set exactly one of
E, G, L.  All three conditions in the source are written as the same
equality test (the comments say greater / less, the code says `==`), and
the result is stored in a freshly created lowercase `fl` attribute, not the
FL flags register.  With reg[0] = reg[1] = 5 all three bits are set
(fl = 7); with reg[0] = 7, reg[1] = 3 (claim: G) and with reg[0] = 2,
reg[1] = 9 (claim: L) no bit is set at all; FL stays 0 throughout. -/
theorem C2_cmp_flag_bug :
    (alu (cmpProbe (.i 5) (.i 5)) (.i CMP) (.i 0) (.i 1)).toOption.map
        (fun s => (s.fl, s.FL)) = some (some 7, 0) ∧
    (alu (cmpProbe (.i 7) (.i 3)) (.i CMP) (.i 0) (.i 1)).toOption.map
        (fun s => (s.fl, s.FL)) = some (some 0, 0) ∧
    (alu (cmpProbe (.i 2) (.i 9)) (.i CMP) (.i 0) (.i 1)).toOption.map
        (fun s => (s.fl, s.FL)) = some (some 0, 0) := by decide

/-- Claim C3 (code bug): the JEQ and JNE handlers are bare `pass` stubs, and
their opcodes have the sets_pc bit set, so the cycle performs no automatic
advance either: whatever the flags say, PC stays exactly where it was (here
0), instead of jumping to reg[0] = 10 when the branch should be taken or
advancing to 2 when it should fall through. -/
theorem C3_jeq_jne_stubs :
    (runCycle jeqProbe).toOption.map CPU.PC = some (.i 0) ∧
    (runCycle { jeqProbe with fl := some 0 }).toOption.map CPU.PC = some (.i 0) ∧
    (runCycle jneProbe).toOption.map CPU.PC = some (.i 0) ∧
    (runCycle { jneProbe with fl := some 1 }).toOption.map CPU.PC = some (.i 0) ∧
    pyIndex jeqProbe.reg 0 = some (.i 10) := by decide

/-- Claim C4 counterexample: running LDI r0,200; LDI r1,100; ADD r0,r1;
PRN r0 leaves 300 in reg[0] and emits 300 — not (200+100) mod 256 = 44:
the ALU performs unbounded integer addition with no modulo-256 wrap. -/
theorem C4_add_wraparound_cex :
    afterSteps 4 (binProg (.i ADD) (.i 200) (.i 100))
      = some ([.i 300], some (.i 300)) ∧
    (200 + 100) % 256 = 44 ∧ PyVal.i 300 ≠ .i 44 := by decide

/-- Claim C4 (amended): for all 8-bit x, y the program LDI r0,x; LDI r1,y;
ADD r0,r1; PRN r0 leaves exactly x + y (unbounded, not reduced mod 256) in
reg[0] and emits that value; SUB and MUL likewise use unbounded Python
integer arithmetic (3 - 5 gives -2, 16 * 16 gives 256), and none of them
raises an error on overflow. -/
theorem C4_arith_unbounded (x y : ℤ) (hx0 : 0 ≤ x) (hx : x ≤ 255)
    (hy0 : 0 ≤ y) (hy : y ≤ 255) :
    afterSteps 4 (binProg (.i ADD) (.i x) (.i y))
      = some ([.i (x + y)], some (.i (x + y))) ∧
    afterSteps 4 (binProg (.i SUB) (.i 3) (.i 5))
      = some ([.i (-2)], some (.i (-2))) ∧
    afterSteps 4 (binProg (.i MUL) (.i 16) (.i 16))
      = some ([.i 256], some (.i 256)) :=
  ⟨rfl, by decide, by decide⟩

theorem C4_arith_unbounded_witness :
    (0 ≤ (200 : ℤ) ∧ (200 : ℤ) ≤ 255 ∧ 0 ≤ (100 : ℤ) ∧ (100 : ℤ) ≤ 255) ∧
    afterSteps 4 (binProg (.i ADD) (.i 200) (.i 100))
      = some ([.i (200 + 100)], some (.i (200 + 100))) :=
  ⟨by decide,
   (C4_arith_unbounded 200 100 (by decide) (by decide) (by decide) (by decide)).1⟩

/-- Claim C5 counterexample: DIV with reg[0] = 7, reg[1] = 2 stores the
Python true-division float 3.5 (exactly 7/2 in the rational idealization),
not the integer floor quotient 3. -/
theorem C5_div_not_floor_cex :
    afterSteps 4 (binProg (.i DIV) (.i 7) (.i 2))
      = some ([.f (((7 : ℤ) : ℚ) / ((2 : ℤ) : ℚ))],
              some (.f (((7 : ℤ) : ℚ) / ((2 : ℤ) : ℚ)))) ∧
    (7 : ℤ) / 2 = 3 ∧ (((7 : ℤ) : ℚ) / ((2 : ℤ) : ℚ)) ≠ ((3 : ℤ) : ℚ) :=
  ⟨rfl, by decide, by norm_num⟩

/-- Claim C5 (amended): DIV fails with ZeroDivisionError exactly when the
divisor register holds 0 (and a fatal DIV-by-zero halts the run with no
further PRN output), and otherwise stores the Python true-division
quotient — a float, not the integer floor quotient. -/
theorem C5_div_semantics (s : CPU) (rA rB a b : PyVal)
    (ha : getRegE s rA = .ok a) (hb : getRegE s rB = .ok b) :
    (b.eqb (.i 0) = true → alu s (.i DIV) rA rB = .error (.zeroDivisionError, s)) ∧
    (b.eqb (.i 0) = false → alu s (.i DIV) rA rB = setRegE s rA (a.div b)) ∧
    fatalView 3 (binProg (.i DIV) (.i 7) (.i 0)) = some (.zeroDivisionError, []) := by
  refine ⟨fun hz => ?_, fun hz => ?_, by decide⟩
  · rw [alu_DIV_eq, ha, hb]
    simp [hz]
  · rw [alu_DIV_eq, ha, hb]
    simp [hz]

theorem C5_div_semantics_witness :
    ((PyVal.i 2).eqb (.i 0) = true →
      alu (cmpProbe (.i 7) (.i 2)) (.i DIV) (.i 0) (.i 1)
        = .error (.zeroDivisionError, cmpProbe (.i 7) (.i 2))) ∧
    ((PyVal.i 2).eqb (.i 0) = false →
      alu (cmpProbe (.i 7) (.i 2)) (.i DIV) (.i 0) (.i 1)
        = setRegE (cmpProbe (.i 7) (.i 2)) (.i 0) ((PyVal.i 7).div (.i 2))) ∧
    fatalView 3 (binProg (.i DIV) (.i 7) (.i 0)) = some (.zeroDivisionError, []) :=
  C5_div_semantics (cmpProbe (.i 7) (.i 2)) (.i 0) (.i 1) (.i 7) (.i 2)
    (by decide) (by decide)

/-- Claim C8 (confirmed): in every cycle whose fetch succeeds with opcode
byte i and whose dispatch (handler or ALU) returns normally, the loop
computes the operand count as i >> 6 and then advances PC by
operand_count + 1 exactly when bit 4 of the opcode is 0; when bit 4 is 1
the dispatched state's PC is left untouched. -/
theorem C8_decode_and_advance (s s₁ t : CPU) (i : ℤ) (a b : PyVal)
    (hf : fetchPhase s = .ok (s₁, i, a, b)) (hd : dispatch i a b s₁ = .ok t) :
    runCycle s = .ok (if pyShr i 4 % 2 = 0
        then { t with PC := t.PC.add (.i (pyShr i 6 + 1)) } else t) := by
  simp only [runCycle, hf, hd]

theorem C8_decode_and_advance_witness :
    runCycle c8s = .ok (if pyShr LDI 4 % 2 = 0
        then { c8t with PC := c8t.PC.add (.i (pyShr LDI 6 + 1)) } else c8t) :=
  C8_decode_and_advance c8s c8s1 c8t LDI (.i 0) (.i 5) (by decide) (by decide)

/-- Claim C9 counterexample: a negative address is not rejected by the
memory primitives: reading address -1 of the freshly initialised CPU
returns a value (ram[255] = 0) instead of failing, and writing 99 at
address -1 stores it at address 255. -/
theorem C9_negative_address_cex :
    ram_read initialState (.i (-1))
      = .ok ({ initialState with MAR := .i (-1), MDR := some (.i 0) }, .i 0) ∧
    (ram_write initialState (.i (-1)) (.i 99)).toOption.map
        (fun s => pyIndex s.ram 255) = some (some (.i 99)) := by decide

/-- Claim C9 (amended): the memory primitives fail (with IndexError, which
carries no address) exactly for integer addresses at or above 256 or below
-256; addresses in [-256, 0) are not rejected — they wrap around
Python-style to address + 256 for both reads and writes. -/
theorem C9_ram_bounds (s : CPU) (addr : ℤ) (v : PyVal)
    (hl : s.ram.length = 256) :
    ((256 ≤ addr ∨ addr < -256) →
      ram_read s (.i addr) = .error (.indexError, { s with MAR := .i addr }) ∧
      ram_write s (.i addr) v =
        .error (.indexError, { s with MAR := .i addr, MDR := some v })) ∧
    (-256 ≤ addr → addr < 0 →
      (ram_read s (.i addr)).toOption.map Prod.snd = s.ram[(addr + 256).toNat]? ∧
      (ram_write s (.i addr) v).toOption.map CPU.ram
        = some (s.ram.set (addr + 256).toNat v)) := by
  constructor
  · intro h
    constructor
    · unfold ram_read
      simp only [toI, pyIndex_oob s.ram addr hl h]
    · unfold ram_write
      simp only [toI, pySet_oob s.ram addr v hl h]
  · intro h0 h1
    constructor
    · unfold ram_read
      simp only [toI, pyIndex_neg s.ram addr hl h0 h1]
      cases s.ram[(addr + 256).toNat]? <;> simp [Except.toOption]
    · unfold ram_write
      simp only [toI, pySet_neg s.ram addr v hl h0 h1]
      simp [Except.toOption]

theorem C9_ram_bounds_witness :
    initialState.ram.length = 256 ∧
    (ram_read initialState (.i 300)
        = .error (.indexError, { initialState with MAR := .i 300 }) ∧
      ram_write initialState (.i 300) (.i 0) =
        .error (.indexError, { initialState with MAR := .i 300, MDR := some (.i 0) })) :=
  ⟨by decide,
   (C9_ram_bounds initialState 300 (.i 0) (by decide)).1
     (by decide : (256 ≤ (300 : ℤ) ∨ (300 : ℤ) < -256))⟩

/-- Claim C10 counterexample: the fetched byte 2 at PC = 0 has a clear ALU
bit and no dispatch entry; execution halts with an uncaught KeyError whose
diagnostic carries only the byte value 2 — the PC at fault (0) is not part
of the report. -/
theorem C10_no_pc_in_diagnostic_cex :
    run 3 c10s = .fatal (.keyError 2) c10s1 ∧ c10s1.PC = .i 0 ∧
      ¬ (PyVal.i 0) ∈ errReport (.keyError 2) := by decide

/-- Claim C10 (amended): a fetched opcode byte with a clear ALU bit (bit 5)
and no branchtable entry halts execution immediately — regardless of the
remaining fuel — with an uncaught KeyError naming the offending byte; no
further instructions execute (the output is exactly what was already
emitted), and the diagnostic contains only the byte value, not the PC. -/
theorem C10_unknown_opcode (n : ℕ) (s s₁ : CPU) (i : ℤ) (a b : PyVal)
    (hr : s.running = true)
    (hf : fetchPhase s = .ok (s₁, i, a, b))
    (h5 : pyShr i 5 % 2 = 0)
    (hbt : branchtable0 i = none) :
    run (n + 1) s = .fatal (.keyError i) s₁ ∧ s₁.output = s.output ∧
      errReport (.keyError i) = [.i i] := by
  have hd : dispatch i a b s₁ = .error (.keyError i, s₁) := by
    unfold dispatch
    rw [if_neg (by omega), hbt]
  have hcyc : runCycle s = .error (.keyError i, s₁) := by
    simp only [runCycle, hf, hd]
  exact ⟨run_keyError n s s₁ i hr hcyc, (fetchPhase_frame hf).1, rfl⟩

theorem C10_unknown_opcode_witness :
    run 3 c10s = .fatal (.keyError 2) c10s1 ∧ c10s1.output = c10s.output ∧
      errReport (.keyError 2) = [.i 2] :=
  C10_unknown_opcode 2 c10s c10s1 2 (.i 0) (.i 0) (by decide) (by decide)
    (by decide) (by decide)

/-- Claim C6 (confirmed): executing PUSH r immediately followed by POP r —
a PUSH instruction at p with operand r, followed (after the automatic
advance) by a POP instruction at p+2 with the same operand — leaves reg[r]
with its pre-PUSH value and restores the stack pointer reg[7] to its
pre-PUSH value S.  The stack accesses are assumed in range (1 ≤ S ≤ 256,
instruction bytes within memory) and the pushed slot S-1 must not overwrite
the POP instruction or its operand byte. -/
theorem C6_push_pop_roundtrip (s : CPU) (p S r : ℤ)
    (hram : s.ram.length = 256) (hreg : s.reg.length = 8)
    (hPC : s.PC = .i p)
    (hp0 : 0 ≤ p) (hp4 : p + 4 < 256)
    (hS7 : pyIndex s.reg 7 = some (.i S))
    (hS1 : 1 ≤ S) (hS2 : S ≤ 256)
    (hr0 : 0 ≤ r) (hr8 : r < 8)
    (hI0 : pyIndex s.ram p = some (.i PUSH))
    (hI1 : pyIndex s.ram (p + 1) = some (.i r))
    (hI2 : pyIndex s.ram (p + 2) = some (.i POP))
    (hI3 : pyIndex s.ram (p + 3) = some (.i r))
    (hc2 : S - 1 ≠ p + 2) (hc3 : S - 1 ≠ p + 3) :
    ((runCycle s).bind runCycle).toOption.map
        (fun u => (pyIndex u.reg 7, pyIndex u.reg r)) =
      some (some (.i S), pyIndex s.reg r) := by
  obtain ⟨v, hv⟩ := pyIndex_exists (s.reg.set (7:ℤ).toNat (.i (S - 1))) r hr0
    (by simp [List.length_set, hreg]; omega)
  have hfetch1 := fetchPhase_spec s p PUSH (.i r) (.i POP) hPC hI0 hI1 hI2
  have hexec1 := execPUSH_spec
    { s with MAR := .i (p + 2), MDR := some (.i POP), IR := some (.i PUSH) }
    p S r v hreg hram hPC hS7 hS1 hS2 hI1 hv
  have hcyc1 := runCycle_of_parts s _ _ PUSH (.i r) (.i POP) hfetch1
    (by rw [dispatch_PUSH]; exact hexec1)
  rw [if_pos (show pyShr PUSH 4 % 2 = 0 by decide),
    (show pyShr PUSH 6 + 1 = 2 by decide)] at hcyc1
  simp only [hPC, PyVal.add] at hcyc1
  have hcyc1' : runCycle s = .ok { s with
      reg := s.reg.set (7:ℤ).toNat (.i (S - 1)),
      ram := s.ram.set (S - 1).toNat v,
      MAR := .i (S - 1), MDR := some v, IR := some (.i PUSH),
      PC := .i (p + 2) } := hcyc1
  have hlenB : (s.ram.set (S - 1).toNat v).length = 256 := by
    simp [List.length_set, hram]
  have hJ0 : pyIndex (s.ram.set (S - 1).toNat v) (p + 2) = some (.i POP) := by
    rw [pyIndex_set_ne s.ram (S - 1) (p + 2) v (by omega) (by omega) hc2]
    exact hI2
  have hJ1 : pyIndex (s.ram.set (S - 1).toNat v) (p + 2 + 1) = some (.i r) := by
    have e : p + 2 + 1 = p + 3 := by ring
    rw [e, pyIndex_set_ne s.ram (S - 1) (p + 3) v (by omega) (by omega) hc3]
    exact hI3
  obtain ⟨w, hw⟩ := pyIndex_exists (s.ram.set (S - 1).toNat v) (p + 2 + 2)
    (by omega) (by rw [hlenB]; omega)
  have hregA7 : pyIndex (s.reg.set (7:ℤ).toNat (.i (S - 1))) 7 = some (.i (S - 1)) :=
    pyIndex_set_self s.reg 7 (.i (S - 1)) (by omega) (by omega)
  have hMem : pyIndex (s.ram.set (S - 1).toNat v) (S - 1) = some v :=
    pyIndex_set_self s.ram (S - 1) v (by omega) (by omega)
  have h7b : pyIndex ((s.reg.set (7:ℤ).toNat (.i (S - 1))).set r.toNat v) 7
      = some (.i (S - 1)) := by
    by_cases hr7 : r = 7
    · subst hr7
      have hv2 : v = .i (S - 1) := Option.some.inj (hv.symm.trans hregA7)
      rw [pyIndex_set_self _ 7 v (by omega) (by simp [List.length_set]; omega), hv2]
    · rw [pyIndex_set_ne _ r 7 v hr0 (by omega) (by omega)]
      exact hregA7
  have hfetch2 := fetchPhase_spec { s with
      reg := s.reg.set (7:ℤ).toNat (.i (S - 1)),
      ram := s.ram.set (S - 1).toNat v,
      MAR := .i (S - 1), MDR := some v, IR := some (.i PUSH),
      PC := .i (p + 2) } (p + 2) POP (.i r) w rfl hJ0 hJ1 hw
  have hexec2 := execPOP_spec { s with
      reg := s.reg.set (7:ℤ).toNat (.i (S - 1)),
      ram := s.ram.set (S - 1).toNat v,
      MAR := .i (p + 2 + 2), MDR := some w, IR := some (.i POP),
      PC := .i (p + 2) } (p + 2) (S - 1) r (S - 1) v
    (by simp [List.length_set, hreg]) rfl hregA7 hMem hJ1 hr0 hr8 h7b
  have hcyc2 := runCycle_of_parts _ _ _ POP (.i r) w hfetch2
    (by rw [dispatch_POP]; exact hexec2)
  rw [if_pos (show pyShr POP 4 % 2 = 0 by decide),
    (show pyShr POP 6 + 1 = 2 by decide)] at hcyc2
  simp only [PyVal.add] at hcyc2
  have hfin7 : pyIndex (((s.reg.set (7:ℤ).toNat (.i (S - 1))).set r.toNat v).set
      (7:ℤ).toNat (.i (S - 1 + 1))) 7 = some (.i S) := by
    rw [pyIndex_set_self _ 7 _ (by omega) (by simp [List.length_set]; omega)]
    have e : S - 1 + 1 = S := by omega
    rw [e]
  have hfinr : pyIndex (((s.reg.set (7:ℤ).toNat (.i (S - 1))).set r.toNat v).set
      (7:ℤ).toNat (.i (S - 1 + 1))) r = pyIndex s.reg r := by
    by_cases hr7 : r = 7
    · subst hr7
      rw [hfin7, hS7]
    · rw [pyIndex_set_ne _ 7 r _ (by omega) hr0 (by omega),
        pyIndex_set_self _ r v hr0 (by simp [List.length_set]; omega)]
      rw [pyIndex_set_ne _ 7 r _ (by omega) hr0 (by omega)] at hv
      exact hv.symm
  rw [hcyc1']
  simp only [Except.bind]
  rw [hcyc2]
  simp only [Except.toOption, Option.map, hfin7, hfinr]

theorem C6_push_pop_roundtrip_witness :
    ((runCycle c6w).bind runCycle).toOption.map
        (fun u => (pyIndex u.reg 7, pyIndex u.reg 2)) =
      some (some (.i 244), pyIndex c6w.reg 2) :=
  C6_push_pop_roundtrip c6w 0 244 2 (by decide) (by decide) (by decide)
    (by decide) (by decide) (by decide) (by decide) (by decide) (by decide)
    (by decide) (by decide) (by decide) (by decide) (by decide) (by decide)
    (by decide)

/-- Claim C7 (confirmed): a CALL at address p pushes the return address
p+2 at stack slot S-1 (where S is the pre-CALL stack pointer) and jumps to
the target held in the operand register; then for any machine state t in
which the subroutine has kept the stack balanced (reg[7] is back at S-1 and
the saved slot still holds p+2) and the instruction at its PC is RET,
executing the RET sets PC to p+2 — the instruction right after the CALL and
its operand byte — and restores reg[7] to S. -/
theorem C7_call_ret (s t : CPU) (p S r q : ℤ) (tgt : PyVal)
    (hram : s.ram.length = 256) (hreg : s.reg.length = 8)
    (hPC : s.PC = .i p) (hp0 : 0 ≤ p) (hp2 : p + 2 < 256)
    (hS7 : pyIndex s.reg 7 = some (.i S)) (hS1 : 1 ≤ S) (hS2 : S ≤ 256)
    (hr0 : 0 ≤ r) (hr8 : r < 8) (hr7 : r ≠ 7)
    (hI0 : pyIndex s.ram p = some (.i CALL))
    (hI1 : pyIndex s.ram (p + 1) = some (.i r))
    (hc1 : S - 1 ≠ p + 1)
    (htgt : pyIndex s.reg r = some tgt)
    (htram : t.ram.length = 256) (htreg : t.reg.length = 8)
    (htPC : t.PC = .i q) (hq0 : 0 ≤ q) (hq2 : q + 2 < 256)
    (ht7 : pyIndex t.reg 7 = some (.i (S - 1)))
    (htMem : pyIndex t.ram (S - 1) = some (.i (p + 2)))
    (htI : pyIndex t.ram q = some (.i RET)) :
    (runCycle s).toOption.map
        (fun u => (u.PC, pyIndex u.reg 7, pyIndex u.ram (S - 1)))
      = some (tgt, some (.i (S - 1)), some (.i (p + 2))) ∧
    (runCycle t).toOption.map (fun u => (u.PC, pyIndex u.reg 7))
      = some (.i (p + 2), some (.i S)) := by
  constructor
  · obtain ⟨b1, hb1⟩ := pyIndex_exists s.ram (p + 2) (by omega) (by rw [hram]; omega)
    have hfetch1 := fetchPhase_spec s p CALL (.i r) b1 hPC hI0 hI1 hb1
    have htgtA : pyIndex (s.reg.set (7:ℤ).toNat (.i (S - 1))) r = some tgt := by
      rw [pyIndex_set_ne _ 7 r _ (by omega) hr0 (by omega)]
      exact htgt
    have hexec1 := execCALL_spec
      { s with MAR := .i (p + 2), MDR := some b1, IR := some (.i CALL) }
      p S r tgt hreg hram hPC hS7 hS1 hS2 hI1 hc1 (by omega) htgtA
    have hcyc1 := runCycle_of_parts s _ _ CALL (.i r) b1 hfetch1
      (by rw [dispatch_CALL]; exact hexec1)
    rw [if_neg (show ¬ pyShr CALL 4 % 2 = 0 by decide)] at hcyc1
    rw [hcyc1]
    simp only [Except.toOption, Option.map]
    rw [pyIndex_set_self s.reg 7 _ (by omega) (by omega),
      pyIndex_set_self s.ram (S - 1) _ (by omega) (by omega)]
  · obtain ⟨w1, hw1⟩ := pyIndex_exists t.ram (q + 1) (by omega) (by rw [htram]; omega)
    obtain ⟨w2, hw2⟩ := pyIndex_exists t.ram (q + 2) (by omega) (by rw [htram]; omega)
    have hfetch2 := fetchPhase_spec t q RET w1 w2 htPC htI hw1 hw2
    have hexec2 := execRET_spec
      { t with MAR := .i (q + 2), MDR := some w2, IR := some (.i RET) }
      (S - 1) (.i (p + 2)) htreg ht7 htMem
    have hcyc2 := runCycle_of_parts t _ _ RET w1 w2 hfetch2
      (by rw [dispatch_RET]; exact hexec2)
    rw [if_neg (show ¬ pyShr RET 4 % 2 = 0 by decide)] at hcyc2
    rw [hcyc2]
    simp only [Except.toOption, Option.map]
    rw [pyIndex_set_self t.reg 7 _ (by omega) (by omega)]
    have e : S - 1 + 1 = S := by omega
    rw [e]

theorem C7_call_ret_witness :
    (runCycle c7s).toOption.map
        (fun u => (u.PC, pyIndex u.reg 7, pyIndex u.ram (244 - 1)))
      = some (.i 4, some (.i (244 - 1)), some (.i (0 + 2))) ∧
    (runCycle c7t).toOption.map (fun u => (u.PC, pyIndex u.reg 7))
      = some (.i (0 + 2), some (.i 244)) :=
  C7_call_ret c7s c7t 0 244 1 4 (.i 4) (by decide) (by decide) (by decide)
    (by decide) (by decide) (by decide) (by decide) (by decide) (by decide)
    (by decide) (by decide) (by decide) (by decide) (by decide) (by decide)
    (by decide) (by decide) (by decide) (by decide) (by decide) (by decide)
    (by decide) (by decide)

end LS8
